import Mathlib

/-!
# Verification of the knowledge-pipeline orchestration layer

Shallow embedding of the Python source of the knowledge-pipeline
repository (`main.py`, `src/pipeline.py`, `src/utils/text_tools.py`,
`src/utils/llm_client.py`) together with proofs about the embedded
operations.

Conventions used throughout:
* Python strings are Lean `String`s; Python `list`s are Lean `List`s.
* Python `dict`s that are only read by key-lookup and in-order iteration
  are association lists `List (key × value)` (Python dicts preserve
  insertion order).
* Clock readings (`time.time()`, `os.path.getmtime`) are integers; only
  comparisons between them matter to the code under verification.
* Network collaborators (the Open WebUI client) and the transcriber are
  parameters of the embedded functions: each collaborator result that the
  orchestration code branches on is passed in explicitly.  The Python
  client methods catch their own exceptions and return sentinel values
  (`""`, `None`, `False`), which the parameters model directly.
* Fallible operations return `Option`.
-/

namespace KnowledgePipeline

/-! ## Basic data -/

/-- The task kinds put on the job queue: `'audio'`, `'text'`, `'sync_update'`
(`main.py`). -/
inductive TaskKind where
  | audio
  | text
  | syncUpdate
deriving DecidableEq, Repr

/-- A queued work item `(task_type, filepath)` (`main.py`, `job_queue.put`). -/
structure Job where
  kind : TaskKind
  path : String
deriving DecidableEq, Repr

/-- `os.path.join(dir, name)` for the non-degenerate case used by the
scanner (a directory path joined with a bare file name). -/
def pathJoin (dir name : String) : String := dir ++ "/" ++ name

/-- Python `str.strip()`: drop leading and trailing whitespace. -/
def pyStrip (s : String) : String :=
  ⟨((s.data.dropWhile Char.isWhitespace).reverse.dropWhile Char.isWhitespace).reverse⟩

/-- Python `s[:n]`: slice by code points. -/
def pySlice (s : String) (n : Nat) : String := ⟨s.data.take n⟩

/-- Python `str.lower()`, modelled on ASCII case (the configured keywords
and texts are compared case-insensitively; only ASCII case folding is
relevant to the embedded comparisons). -/
def pyLower (s : String) : String := ⟨s.data.map Char.toLower⟩

/-- Splitting a character list at every separator occurrence, keeping
empty pieces (the helper under `pySplit`). -/
def splitCharsAux (p : Char → Bool) : List Char → List Char → List (List Char)
  | [], acc => [acc.reverse]
  | c :: cs, acc =>
    if p c then acc.reverse :: splitCharsAux p cs []
    else splitCharsAux p cs (c :: acc)

/-- Python `str.split()` with no argument: split on whitespace runs,
dropping empty pieces. -/
def pySplit (s : String) : List String :=
  ((splitCharsAux Char.isWhitespace s.data []).map
    (fun l => (⟨l⟩ : String))).filter (fun w => w ≠ "")

/-- Python `str.endswith`. -/
def pyEndsWith (s suffix : String) : Bool := decide (suffix.data <:+ s.data)

/-- Python `str.startswith`. -/
def pyStartsWith (s pre : String) : Bool := decide (pre.data <+: s.data)

/-- Python `needle in hay` on strings: contiguous-substring test. -/
def strContains (hay needle : String) : Bool :=
  decide (needle.data <:+: hay.data)

/-! ## `TextProcessor` (`src/utils/text_tools.py`) -/

/-- One content-type entry from the configured `content_types` mapping,
restricted to the fields the orchestration layer reads
(`src/config_loader.py` supplies them from YAML). -/
structure ContentType where
  is_default : Bool := false
  detection_keywords : List String := []
  enable_analysis : Bool := false
  target_subfolder : Option String := none
  collection_id : Option String := none
deriving DecidableEq, Repr

/-- `intro_text = " ".join(text[:500].split()[:100]).lower()`
(`TextProcessor.determine_content_type`). -/
def introExcerpt (text : String) : String :=
  pyLower (String.intercalate " " ((pySplit (pySlice text 500)).take 100))

/-- `keywords and any(k.lower() in intro_text for k in keywords)`
(`TextProcessor.determine_content_type`). -/
def keywordMatch (intro_text : String) (td : ContentType) : Bool :=
  !td.detection_keywords.isEmpty &&
    td.detection_keywords.any (fun k => strContains intro_text (pyLower k))

/-- The `for type_key, type_data in ...` loop of
`TextProcessor.determine_content_type`: carries the `default_type`
accumulator, returns `(early-return value, final accumulator)`. -/
def detectLoop (intro_text : String) :
    List (String × ContentType) → Option String → Option String × Option String
  | [], default_type => (none, default_type)
  | (type_key, type_data) :: rest, default_type =>
    let default_type := if type_data.is_default then some type_key else default_type
    if keywordMatch intro_text type_data then (some type_key, default_type)
    else detectLoop intro_text rest default_type

/-- `list(self.config.content_types.keys())[0] if self.config.content_types
else "unknown"`: the safety fallback of `determine_content_type`. -/
def firstKey (content_types : List (String × ContentType)) : String :=
  match content_types with
  | [] => "unknown"
  | (k, _) :: _ => k

/-- `TextProcessor.determine_content_type` (`src/utils/text_tools.py`,
lines 179–200).  `if default_type:` is Python truthiness, hence the
empty-string test. -/
def determine_content_type (content_types : List (String × ContentType))
    (text : String) : String :=
  let intro_text := introExcerpt text
  match detectLoop intro_text content_types none with
  | (some type_key, _) => type_key
  | (none, some default_type) =>
    if default_type = "" then firstKey content_types else default_type
  | (none, none) => firstKey content_types

/-- `TextProcessor.generate_tags` (`src/utils/text_tools.py`, lines
202–211): keep the stripped non-blank spoken tags, deduplicate
(`set`), and sort.  The `text` and `entry_type` parameters appear in the
Python signature but are not used by the body. -/
def generate_tags (text : String) (spoken_tags : List String)
    (entry_type : String) : List String :=
  let final_tags := (spoken_tags.filter (fun t => pyStrip t ≠ "")).map pyStrip
  final_tags.dedup.insertionSort (· ≤ ·)

/-! ## `PeriodicScanner` (`main.py`, lines 39–76) -/

/-- One entry of `os.listdir(folder)` with the metadata the scanner
reads: `mtime = none` models `os.path.getmtime` raising `OSError`. -/
structure DirEntry where
  name : String
  mtime : Option Int
deriving DecidableEq, Repr

/-- `f.lower().endswith(('.txt', '.md'))`. -/
def hasTextExt (name : String) : Bool :=
  pyEndsWith (pyLower name) ".txt" || pyEndsWith (pyLower name) ".md"

/-- The per-file body of `PeriodicScanner._scan`: skip if in
`processing_files`, skip on `OSError`, skip if younger than the 1-second
stability threshold, otherwise submit a `('text', filepath)` job. -/
def scanSelect (folder : String) (now : Int) (processing_files : List String)
    (e : DirEntry) : Option Job :=
  let filepath := pathJoin folder e.name
  if filepath ∈ processing_files then none
  else
    match e.mtime with
    | none => none
    | some m => if now - m < 1 then none else some ⟨TaskKind.text, filepath⟩

/-- One pass of `PeriodicScanner._scan` (`main.py`, lines 50–76): the
extension pre-filter followed by the per-file loop; returns the jobs put
on `job_queue` during the pass, in order. -/
def scanOnce (folder : String) (now : Int) (processing_files : List String)
    (listing : List DirEntry) : List Job :=
  (listing.filter (fun e => hasTextExt e.name)).filterMap
    (scanSelect folder now processing_files)

/-! ## Filename disambiguation (`src/pipeline.py`, lines 131–138) -/

/-- `f"{base_id}-{counter}.md"`. -/
def buildFilename (base_id : String) (counter : Nat) : String :=
  base_id ++ "-" ++ Nat.repr counter ++ ".md"

/-- The `while True` probe loop of `_run_ingestion_pipeline`, with explicit
fuel (the Python loop is unbounded; it terminates as soon as it probes a
filename not present in the target directory).  Returns the chosen
counter and filename. -/
def findCounterAux (existing : List String) (base_id : String) :
    Nat → Nat → Option (Nat × String)
  | 0, _ => none
  | fuel + 1, counter =>
    let final_filename := buildFilename base_id counter
    if final_filename ∈ existing then findCounterAux existing base_id fuel (counter + 1)
    else some (counter, final_filename)

/-- The disambiguation scan starting at `counter = 1`, given the set of
filenames already present in the target directory.  Fuel
`existing.length + 1` suffices for every actual directory state because
the probed filenames are pairwise distinct. -/
def findCounter (existing : List String) (base_id : String) :
    Option (Nat × String) :=
  findCounterAux existing base_id (existing.length + 1) 1

/-! ## Pipeline configuration (`src/config_loader.py`, `src/pipeline.py`) -/

/-- Python truthiness of an optional string (`if not fid`, `if default_type`,
`if created_file`). -/
def pyTruthy : Option String → Bool
  | none => false
  | some s => s ≠ ""

/-- The slice of `PipelineConfig` read by the orchestration code under
verification. -/
structure PipeConfig where
  content_types : List (String × ContentType)
  output_path : String
  text_input_dir : String
  focus_mode_id : Option String
deriving DecidableEq, Repr

/-- Results of the Open WebUI client calls that `_sync_file` branches on
(`src/utils/llm_client.py`): `upload_file` returns an id or `None` and
catches all its exceptions; `link_to_collection` returns a `Bool` and
likewise never raises. -/
structure SyncCollab where
  upload_id : Option String
  link_ok : Bool
deriving DecidableEq, Repr

/-- `KnowledgePipeline._sync_file` (`src/pipeline.py`, lines 291–305):
returns `False` exactly when the upload yields no (truthy) id; the
collection-link results are logged and discarded, so a reachable server
with a successful upload always yields `True`. -/
def sync_file (cfg : PipeConfig) (c : SyncCollab) (entry_type : String)
    (tags : List String) (force_focus : Bool := false) : Bool :=
  if !pyTruthy c.upload_id then false
  else
    let _ := (cfg.content_types.lookup entry_type).bind (·.collection_id)
    let _ := force_focus || tags.contains "FOCUS"
    true

/-! ## Ingestion pipeline (`src/pipeline.py`, lines 111–165) -/

/-- The metadata dict produced by `TextProcessor.extract_metadata_from_text`.
The extraction itself is a delegated collaborator of the orchestration
layer (regex/date heuristics plus filesystem timestamps); the ingestion
pipeline only reads these four fields. -/
structure ExtractedMeta where
  date : String
  time : String
  clean_text : String
  spoken_tags : List String
deriving DecidableEq, Repr

/-- The dict returned by `KnowledgePipeline._enrich_content`: on any LLM
failure, unparsable JSON, or missing title the method substitutes the
defaults, so `title = "Untitled"` is the failure sentinel. -/
structure AiMeta where
  title : String := "Untitled"
  language : String := "en"
  emotions : List String := []
  characters : List String := []
  summary : String := ""
deriving DecidableEq, Repr

/-- Collaborator results consumed by one ingestion pass. -/
structure Collab where
  ai_meta : AiMeta
  analysis : String
  sync : SyncCollab
deriving DecidableEq, Repr

/-- The filesystem state the ingestion/repair code mutates:
absolute paths present under `paths['output']`, file names present in the
text-input (retry) directory, and whether the source input file still
exists. -/
structure FsState where
  output_files : List String
  retry_files : List String
  source_present : Bool
deriving DecidableEq, Repr

/-- `KnowledgePipeline._run_analysis`: returns `""` when the entry type has
no configuration, otherwise the LLM result (`""` on LLM failure). -/
def run_analysis (cfg : PipeConfig) (c : Collab) (entry_type : String) : String :=
  match cfg.content_types.lookup entry_type with
  | none => ""
  | some _ => c.analysis

/-- `type_config.get("target_subfolder", "Personal Diary")`. -/
def targetSubfolder (type_cfg : Option ContentType) : String :=
  (type_cfg.bind (·.target_subfolder)).getD "Personal Diary"

/-- `KnowledgePipeline._run_ingestion_pipeline` (`src/pipeline.py`, lines
111–165).  Returns the updated filesystem state and the path of the
persisted document.  The `none` result arises only from the fuel cutoff
of `findCounter`, which no actual directory state reaches; Python-level
exceptions (I/O) are outside the model.  The sync result is discarded by
the source (`self._sync_file(final_path, entry_type, tags)` on line 163). -/
def run_ingestion_pipeline (cfg : PipeConfig) (c : Collab) (st : FsState)
    (meta : ExtractedMeta) (original_filename source_path : String)
    (is_text_file : Bool := false) : FsState × Option String :=
  let entry_type := determine_content_type cfg.content_types meta.clean_text
  let tags := generate_tags meta.clean_text meta.spoken_tags entry_type
  let ai_meta := c.ai_meta
  let analysis_required :=
    ((cfg.content_types.lookup entry_type).map (·.enable_analysis)).getD false
  let analysis_content :=
    if analysis_required then run_analysis cfg c entry_type else ""
  let subfolder := targetSubfolder (cfg.content_types.lookup entry_type)
  let target_dir := pathJoin cfg.output_path subfolder
  let base_id := meta.date ++ "-" ++ entry_type
  match findCounter st.output_files (pathJoin target_dir base_id) with
  | none => (st, none)
  | some (counter, final_path) =>
    let final_filename := buildFilename base_id counter
    let st1 : FsState := { st with output_files := final_path :: st.output_files }
    let missing_metadata := ai_meta.title = "Untitled"
    let missing_analysis := analysis_required ∧ analysis_content = ""
    if missing_metadata ∨ missing_analysis then
      let st2 : FsState :=
        if is_text_file then st1
        else { st1 with retry_files := final_filename :: st1.retry_files }
      (st2, some final_path)
    else
      let _ := sync_file cfg c.sync entry_type tags
      (st1, some final_path)

/-- `KnowledgePipeline.process_text_file` (`src/pipeline.py`, lines 58–75).
`meta` stands for `extract_metadata_from_text(content, filepath)` (a
delegated, deterministic computation on `content` and the file's
timestamps); `repair_result` stands for the `_run_repair_pipeline` call
taken when the content opens with a front-matter fence.  On a successful
ingestion the source file is removed (`os.remove(filepath)`; the inner
`try/except: pass` only ignores a failing removal). -/
def process_text_file (cfg : PipeConfig) (c : Collab) (st : FsState)
    (content : String) (filepath original_filename : String)
    (meta : ExtractedMeta)
    (repair_result : FsState × Option String) : FsState × Option String :=
  if pyStartsWith content "---" then repair_result
  else
    let (st1, final_path) :=
      run_ingestion_pipeline cfg c st meta original_filename filepath true
    if pyTruthy final_path then ({ st1 with source_present := false }, final_path)
    else (st1, final_path)

/-! ## Repair pipeline (`src/pipeline.py`, lines 167–243) -/

/-- The fields of a retry-root document read by `_run_repair_pipeline`
after parsing (`content.split('---')`, `yaml.safe_load`, the body/section
splits).  `title = none` models a YAML `null` title; an absent `title`
key behaves exactly like `some "Untitled"` (`fm.get('title','Untitled')`).
`date` is `fm.get('date','')`. -/
structure RepairDoc where
  title : Option String
  date : String
  entry_type : String
  tags : List String
  focus : Bool
  has_analysis : Bool
  body_text : String
deriving DecidableEq, Repr

/-- Collaborator results consumed by one repair pass. -/
structure RepairCollab where
  ai_meta : AiMeta
  health : Bool
  analysis : String
  sync : SyncCollab
deriving DecidableEq, Repr

/-- Observable outcome of `_run_repair_pipeline` on one file.
`file_changed` is the source's `file_changed` flag, i.e. whether the
retry-root file was rewritten in place; `sync_attempted` distinguishes
the early `return filepath` (server offline) from the normal exit;
`moved` is the final copy-to-output-and-delete step. -/
structure RepairResult where
  fm_title : Option String
  file_changed : Bool
  added_analysis : Bool
  sync_attempted : Bool
  synced : Bool
  moved : Bool
  ret : String
deriving DecidableEq, Repr

/-- The tail of `_run_repair_pipeline` after the title-repair block:
optional analysis, in-place rewrite when `file_changed`, sync, and the
move-to-output when fixed and synced. -/
def repairTail (cfg : PipeConfig) (c : RepairCollab) (doc : RepairDoc)
    (filepath filename : String) (title : Option String) (changed : Bool) :
    RepairResult :=
  let type_cfg := cfg.content_types.lookup doc.entry_type
  let analysis_required := (type_cfg.map (·.enable_analysis)).getD false
  let added_analysis := analysis_required && !doc.has_analysis && (c.analysis != "")
  let file_changed := changed || added_analysis
  let success := sync_file cfg c.sync doc.entry_type doc.tags doc.focus
  let is_fixed := (title != some "Untitled") &&
    (!analysis_required || doc.has_analysis || added_analysis)
  let moved := is_fixed && success
  let official_path := pathJoin (pathJoin cfg.output_path (targetSubfolder type_cfg)) filename
  { fm_title := title
    file_changed := file_changed
    added_analysis := added_analysis
    sync_attempted := true
    synced := success
    moved := moved
    ret := if moved then official_path else filepath }

/-- `KnowledgePipeline._run_repair_pipeline` (`src/pipeline.py`, lines
167–243), starting from the parsed document.  The title-repair block:
a sentinel title (`'Untitled'`, `None`, or `'null'`) triggers
re-enrichment; when that still yields no title, an unreachable server
(`check_health` false) causes the early `return filepath` with the file
untouched, while a reachable one substitutes the fallback title
`f"Recovered Entry {date}".strip()`. -/
def run_repair_pipeline (cfg : PipeConfig) (c : RepairCollab) (doc : RepairDoc)
    (filepath filename : String) : RepairResult :=
  if doc.title = none ∨ doc.title = some "Untitled" ∨ doc.title = some "null" then
    if c.ai_meta.title ≠ "Untitled" then
      repairTail cfg c doc filepath filename (some c.ai_meta.title) true
    else if !c.health then
      { fm_title := doc.title
        file_changed := false
        added_analysis := false
        sync_attempted := false
        synced := false
        moved := false
        ret := filepath }
    else
      repairTail cfg c doc filepath filename
        (some (pyStrip ("Recovered Entry " ++ doc.date))) true
  else
    repairTail cfg c doc filepath filename doc.title false

/-! ## Worker (`main.py`, lines 115–144) -/

/-- Outcome of the dispatched pipeline call inside the worker's `try`
block: a normal return carrying the value assigned to `created_file`, or
an exception (caught by `except Exception`). -/
inductive PipeOutcome where
  | ok (created_file : Option String)
  | exc
deriving DecidableEq, Repr

/-- Observable result of one iteration of the `worker` loop body. -/
structure WorkerResult where
  processing_files : Finset String
  cancelled : Option String
  continues : Bool
deriving DecidableEq

/-- One iteration of `worker` (`main.py`, lines 115–144): take a job,
add its path to `processing_files`, run the dispatch inside
`try/except Exception`, cancel the debounce entry for a truthy
`created_file`, and in the `finally` block remove the path (after the
1-second cooldown sleep, not modelled as time) and proceed to the next
job. -/
def workerIteration (processing_files : Finset String) (job : Job)
    (file_exists : Bool) (outcome : PipeOutcome) : WorkerResult :=
  let processing1 := insert job.path processing_files
  let created_file : Option String :=
    if file_exists then
      match outcome with
      | .ok created =>
        match job.kind with
        | .syncUpdate => none
        | _ => created
      | .exc => none
    else none
  let cancelled := if pyTruthy created_file then created_file else none
  let processing2 :=
    if job.path ∈ processing1 then processing1.erase job.path else processing1
  { processing_files := processing2, cancelled := cancelled, continues := true }

/-! ## Shared-state transition system (`main.py`) -/

/-- Phase of the single worker thread started by `main()`:
idle (blocked on `job_queue.get()`), executing a job (the span from the
`processing_files.add` to the start of the `finally` block), or in the
`finally` cleanup (cooldown before the release). -/
inductive WPhase where
  | idle
  | running (j : Job)
  | cleanup (j : Job)
deriving DecidableEq, Repr

/-- The shared mutable state of `main.py`: the FIFO `job_queue`, the
`processing_files` set, and the worker's phase. -/
structure SysState where
  queue : List Job
  processing : Finset String
  phase : WPhase

/-- Interleaving semantics of `main.py`'s threads.  `submit` is any
producer putting a job on the queue (watchdog handlers, the debounce
monitor, the periodic scanner, the initial scan); `start` is the worker
dequeuing a job and adding its path to `processing_files` under the
lock; `finish` is the dispatched call returning or raising (both enter
the `finally` block); `release` is the `finally` block removing the path
after the cooldown. -/
inductive SysStep : SysState → SysState → Prop where
  | submit (s : SysState) (j : Job) :
      SysStep s { s with queue := s.queue ++ [j] }
  | start (s : SysState) (j : Job) (rest : List Job)
      (hq : s.queue = j :: rest) (hw : s.phase = .idle) :
      SysStep s { queue := rest
                  processing := insert j.path s.processing
                  phase := .running j }
  | finish (s : SysState) (j : Job) (hw : s.phase = .running j) :
      SysStep s { s with phase := .cleanup j }
  | release (s : SysState) (j : Job) (hw : s.phase = .cleanup j) :
      SysStep s { s with phase := .idle
                         processing := s.processing.erase j.path }

/-- The initial state after process start: empty queue, empty
`processing_files`, worker blocked on `get`. -/
def initState : SysState := { queue := [], processing := ∅, phase := .idle }

/-- States reachable from `initState` by interleaved steps. -/
inductive Reachable : SysState → Prop where
  | init : Reachable initState
  | step {s t : SysState} : Reachable s → SysStep s t → Reachable t

/-- Path `p` is undergoing a processing pass in state `s` (the dispatched
pipeline call for a job on `p` has started and not yet reached the
`finally` block). -/
def executing (s : SysState) (j : Job) : Prop := s.phase = .running j

/-! ## DebounceManager (`main.py`, lines 79–112) -/

/-- The `pending` dict: `filepath ↦ (execute_at, task_type)`, as an
association list.  The list order is immaterial to the observable
behaviour (each `_monitor` tick processes every due entry). -/
abbrev Pending := List (String × Nat × TaskKind)

/-- `DebounceManager.schedule`: `self.pending[filepath] = (time.time() +
self.delay, task_type)` — overwrites any previous entry for the path. -/
def schedule (delay now : Nat) (filepath : String) (task_type : TaskKind)
    (pending : Pending) : Pending :=
  (filepath, now + delay, task_type) :: pending.filter (fun e => e.1 ≠ filepath)

/-- `DebounceManager.cancel_task`: unconditionally drop the entry. -/
def cancel_task (filepath : String) (pending : Pending) : Pending :=
  pending.filter (fun e => e.1 ≠ filepath)

/-- The lock-held part of one `_monitor` tick: collect and delete every
entry whose `execute_at` has elapsed. -/
def tickFire (now : Nat) (pending : Pending) : Pending × Pending :=
  (pending.filter (fun e => ¬now ≥ e.2.1), pending.filter (fun e => now ≥ e.2.1))

/-- A job emission by the monitor: `(filepath, task_type, tick time)`. -/
abbrev Emit := String × TaskKind × Nat

/-- Events relevant to one debounced path `p`:
`sched t` is `schedule(p, kind)` at time `t` (the `KnowledgeHandler`
refresh), `tick t` is one `_monitor` wake-up at time `t`. -/
inductive DEvent where
  | sched (t : Nat)
  | tick (t : Nat)
deriving DecidableEq, Repr

/-- One event against the manager state: a tick removes the due entries
and enqueues `(task_type, filepath)` for those whose path is not in
`processing_files` (`main.py`, lines 96–112). -/
def debStep (delay : Nat) (p : String) (kind : TaskKind)
    (processing_files : List String) :
    Pending × List Emit → DEvent → Pending × List Emit
  | (pending, out), .sched t => (schedule delay t p kind pending, out)
  | (pending, out), .tick t =>
    let (remaining, fired) := tickFire t pending
    (remaining,
      out ++ fired.filterMap (fun e =>
        if e.1 ∈ processing_files then none else some (e.1, e.2.2, t)))

/-- Run a sequence of events from a manager state. -/
def debRun (delay : Nat) (p : String) (kind : TaskKind)
    (processing_files : List String) (init : Pending × List Emit)
    (events : List DEvent) : Pending × List Emit :=
  events.foldl (debStep delay p kind processing_files) init

/-- A burst phase: one `schedule` call at the given time followed by the
monitor ticks occurring before the next `schedule`. -/
def phaseEvents (ph : Nat × List Nat) : List DEvent :=
  .sched ph.1 :: ph.2.map .tick

/-- The events of a whole burst. -/
def phasesEvents (phases : List (Nat × List Nat)) : List DEvent :=
  (phases.map phaseEvents).flatten

/-- A sample reachable system state: one submitted text job has been
dequeued by the worker and is executing. -/
def exampleRunState : SysState :=
  { queue := []
    processing := insert "/in/a.txt" ∅
    phase := .running ⟨TaskKind.text, "/in/a.txt"⟩ }

/-- A minimal example configuration: one default content type, no
analysis requirement. -/
def exampleCfg : PipeConfig :=
  { content_types := [("journal_entry", { is_default := true })]
    output_path := "/out"
    text_input_dir := "/batch"
    focus_mode_id := none }

/-- Example extracted metadata for a short text input. -/
def exampleMeta : ExtractedMeta :=
  { date := "2025-10-12", time := "unknown"
    clean_text := "hello world", spoken_tags := [] }

/-- The empty filesystem state with the source file present. -/
def emptyFs : FsState :=
  { output_files := [], retry_files := [], source_present := true }

/-- `pending` holds at most one entry per path. -/
def AtMostOnePerPath (pending : Pending) : Prop :=
  ∀ q : String, pending.countP (fun e => e.1 = q) ≤ 1

/-- The value of the `default_type` accumulator after the
`determine_content_type` loop runs to completion without an early
return: the last key flagged `is_default`, if any. -/
def lastDefault (content_types : List (String × ContentType))
    (acc : Option String) : Option String :=
  content_types.foldl
    (fun acc e => if e.2.is_default then some e.1 else acc) acc

/-! ## Theorems -/

theorem mem_generate_tags {text entry_type : String} {spoken_tags : List String}
    {x : String} :
    x ∈ generate_tags text spoken_tags entry_type ↔
      ∃ t ∈ spoken_tags, pyStrip t ≠ "" ∧ pyStrip t = x := by
  unfold generate_tags
  rw [(List.perm_insertionSort (· ≤ ·) _).mem_iff, List.mem_dedup, List.mem_map]
  constructor
  · rintro ⟨t, ht, rfl⟩
    rw [List.mem_filter] at ht
    exact ⟨t, ht.1, by simpa using ht.2, rfl⟩
  · rintro ⟨t, ht, hne, rfl⟩
    exact ⟨t, List.mem_filter.2 ⟨ht, by simpa using hne⟩, rfl⟩

theorem generate_tags_eq_of_mem_iff {text₁ text₂ e₁ e₂ : String}
    {tags₁ tags₂ : List String} (hmem : ∀ x, x ∈ tags₁ ↔ x ∈ tags₂) :
    generate_tags text₁ tags₁ e₁ = generate_tags text₂ tags₂ e₂ := by
  have hperm : List.Perm (generate_tags text₁ tags₁ e₁) (generate_tags text₂ tags₂ e₂) := by
    refine (List.perm_ext_iff_of_nodup ?_ ?_).2 ?_
    · exact ((List.perm_insertionSort (· ≤ ·) _).symm).nodup (List.nodup_dedup _)
    · exact ((List.perm_insertionSort (· ≤ ·) _).symm).nodup (List.nodup_dedup _)
    · intro a
      rw [mem_generate_tags, mem_generate_tags]
      constructor
      · rintro ⟨t, ht, h⟩; exact ⟨t, (hmem t).1 ht, h⟩
      · rintro ⟨t, ht, h⟩; exact ⟨t, (hmem t).2 ht, h⟩
  exact List.eq_of_perm_of_sorted hperm
    (List.sorted_insertionSort _ _) (List.sorted_insertionSort _ _)

/-- **C10.** `TextProcessor.generate_tags` returns a sorted list with no
duplicates and no empty or whitespace-only entries; the result depends
only on the set of spoken tags (invariant under permutation and
duplication of the input), and the `text` and `entry_type` arguments
have no effect. -/
theorem generate_tags_spec (text₁ text₂ e₁ e₂ : String)
    (tags₁ tags₂ : List String) (hmem : ∀ x, x ∈ tags₁ ↔ x ∈ tags₂) :
    (generate_tags text₁ tags₁ e₁).Sorted (· ≤ ·) ∧
    (generate_tags text₁ tags₁ e₁).Nodup ∧
    (∀ e ∈ generate_tags text₁ tags₁ e₁,
      e ≠ "" ∧ ∃ c ∈ e.data, c.isWhitespace = false) ∧
    generate_tags text₁ tags₁ e₁ = generate_tags text₂ tags₂ e₂ := by
  refine ⟨List.sorted_insertionSort _ _,
    ((List.perm_insertionSort (· ≤ ·) _).symm).nodup (List.nodup_dedup _),
    ?_, generate_tags_eq_of_mem_iff hmem⟩
  intro e he
  obtain ⟨t, -, hne, rfl⟩ := mem_generate_tags.1 he
  refine ⟨hne, ?_⟩
  have hdata : (pyStrip t).data ≠ [] := by
    intro h
    exact hne (String.ext (h.trans rfl))
  set n := (t.data.dropWhile Char.isWhitespace).reverse.dropWhile Char.isWhitespace
    with hn
  have hnn : n ≠ [] := by
    intro h
    apply hdata
    show n.reverse = []
    simp [h]
  refine ⟨n.head hnn, ?_, ?_⟩
  · show n.head hnn ∈ n.reverse
    exact List.mem_reverse.2 (List.head_mem hnn)
  · exact List.head_dropWhile_not _ _ hnn

/-- Witness for C10: a concrete permuted-and-duplicated pair of tag lists. -/
theorem generate_tags_spec_witness :
    (∀ x, x ∈ ["b", " a ", "a"] ↔ x ∈ [" a ", "b", "a", "b"]) ∧
    ((generate_tags "some text" ["b", " a ", "a"] "journal_entry").Sorted (· ≤ ·) ∧
     (generate_tags "some text" ["b", " a ", "a"] "journal_entry").Nodup ∧
     (∀ e ∈ generate_tags "some text" ["b", " a ", "a"] "journal_entry",
       e ≠ "" ∧ ∃ c ∈ e.data, c.isWhitespace = false) ∧
     generate_tags "some text" ["b", " a ", "a"] "journal_entry"
       = generate_tags "other" [" a ", "b", "a", "b"] "dream") :=
  have h : ∀ x, x ∈ ["b", " a ", "a"] ↔ x ∈ [" a ", "b", "a", "b"] := by
    intro x
    simp only [List.mem_cons, List.not_mem_nil, or_false]
    constructor
    · rintro (h | h | h) <;> simp [h]
    · rintro (h | h | h | h) <;> simp [h]
  ⟨h, generate_tags_spec "some text" "other" "journal_entry" "dream" _ _ h⟩

theorem detectLoop_fst_of_find? {intro : String} :
    ∀ {l : List (String × ContentType)} {k : String} {td : ContentType}
      (acc : Option String),
      l.find? (fun e => keywordMatch intro e.2) = some (k, td) →
      (detectLoop intro l acc).1 = some k := by
  intro l
  induction l with
  | nil => intro k td acc h; simp at h
  | cons hd rest ih =>
    obtain ⟨k₀, td₀⟩ := hd
    intro k td acc h
    by_cases hm : keywordMatch intro td₀
    · rw [List.find?_cons_of_pos _ (by simpa using hm)] at h
      obtain ⟨h1, -⟩ := Prod.mk.injEq .. ▸ Option.some.inj h
      subst h1
      simp only [detectLoop]
      rw [if_pos hm]
    · rw [List.find?_cons_of_neg _ (by simpa using hm)] at h
      simp only [detectLoop]
      rw [if_neg hm]
      exact ih _ h

theorem detectLoop_of_find?_none {intro : String} :
    ∀ {l : List (String × ContentType)} (acc : Option String),
      l.find? (fun e => keywordMatch intro e.2) = none →
      detectLoop intro l acc = (none, lastDefault l acc) := by
  intro l
  induction l with
  | nil => intro acc _; rfl
  | cons hd rest ih =>
    obtain ⟨k₀, td₀⟩ := hd
    intro acc h
    by_cases hm : keywordMatch intro td₀
    · rw [List.find?_cons_of_pos _ (by simpa using hm)] at h
      exact absurd h (by simp)
    · rw [List.find?_cons_of_neg _ (by simpa using hm)] at h
      simp only [detectLoop, lastDefault, List.foldl_cons]
      rw [if_neg hm]
      exact ih _ h

theorem lastDefault_of_filter_nil :
    ∀ {l : List (String × ContentType)} (acc : Option String),
      l.filter (fun e => e.2.is_default) = [] → lastDefault l acc = acc := by
  intro l
  induction l with
  | nil => intro acc _; rfl
  | cons hd rest ih =>
    intro acc h
    rw [List.filter_cons] at h
    by_cases hm : hd.2.is_default
    · rw [if_pos hm] at h; simp at h
    · rw [if_neg hm] at h
      simp only [lastDefault, List.foldl_cons] at *
      rw [if_neg hm]
      exact ih acc h

theorem lastDefault_of_filter_single :
    ∀ {l : List (String × ContentType)} {d : String} {td : ContentType},
      l.filter (fun e => e.2.is_default) = [(d, td)] →
      ∀ acc, lastDefault l acc = some d := by
  intro l
  induction l with
  | nil => intro d td h; simp at h
  | cons hd rest ih =>
    intro d td h acc
    rw [List.filter_cons] at h
    by_cases hm : hd.2.is_default
    · rw [if_pos hm] at h
      obtain ⟨h1, h2⟩ := List.cons_eq_cons.1 h
      simp only [lastDefault, List.foldl_cons]
      rw [if_pos hm, h1]
      exact lastDefault_of_filter_nil _ h2
    · rw [if_neg hm] at h
      simp only [lastDefault, List.foldl_cons]
      rw [if_neg hm]
      exact ih h acc

/-- **C6.** `TextProcessor.determine_content_type`: the first configured
content-type (in iteration order) whose keyword set matches the leading
excerpt wins; with no keyword match the type flagged `is_default` is
returned; with no keyword match and no default flag, the first available
type key is returned. -/
theorem determine_content_type_spec
    (content_types : List (String × ContentType)) (text : String) :
    (∀ k td,
      content_types.find? (fun e => keywordMatch (introExcerpt text) e.2)
          = some (k, td) →
      determine_content_type content_types text = k) ∧
    (∀ d td,
      content_types.find? (fun e => keywordMatch (introExcerpt text) e.2) = none →
      content_types.filter (fun e => e.2.is_default) = [(d, td)] → d ≠ "" →
      determine_content_type content_types text = d) ∧
    (content_types.find? (fun e => keywordMatch (introExcerpt text) e.2) = none →
      content_types.filter (fun e => e.2.is_default) = [] →
      determine_content_type content_types text = firstKey content_types) := by
  refine ⟨?_, ?_, ?_⟩
  · intro k td h
    have h1 := detectLoop_fst_of_find? none h
    rcases hdl : detectLoop (introExcerpt text) content_types none with ⟨f, s⟩
    rw [hdl] at h1
    simp only at h1
    subst h1
    simp only [determine_content_type, hdl]
  · intro d td hfind hfilter hd
    have h1 := detectLoop_of_find?_none none hfind
    have h2 := lastDefault_of_filter_single hfilter none
    rw [h2] at h1
    simp only [determine_content_type, h1]
    rw [if_neg hd]
  · intro hfind hfilter
    have h1 := detectLoop_of_find?_none none hfind
    have h2 := lastDefault_of_filter_nil none hfilter
    rw [h2] at h1
    simp only [determine_content_type, h1]

/-- Witness for C6: all three branches at concrete configurations. -/
theorem determine_content_type_spec_witness :
    ([("dream_entry", ({ detection_keywords := ["Dream"] } : ContentType)),
      ("journal_entry", ({ is_default := true } : ContentType))].find?
        (fun e => keywordMatch (introExcerpt "I had a Dream about cats") e.2)
      = some ("dream_entry", { detection_keywords := ["Dream"] }) ∧
     determine_content_type
       [("dream_entry", { detection_keywords := ["Dream"] }),
        ("journal_entry", { is_default := true })]
       "I had a Dream about cats" = "dream_entry") ∧
    (determine_content_type
       [("dream_entry", { detection_keywords := ["Dream"] }),
        ("journal_entry", { is_default := true })]
       "nothing matching here" = "journal_entry") ∧
    (determine_content_type
       [("alpha", { detection_keywords := ["zzz"] }), ("beta", {})]
       "hello world" = "alpha") :=
  ⟨⟨by decide,
    (determine_content_type_spec _ _).1 "dream_entry"
      { detection_keywords := ["Dream"] } (by decide)⟩,
   (determine_content_type_spec _ _).2.1 "journal_entry"
     { is_default := true } (by decide) (by decide) (by decide),
   (determine_content_type_spec _ _).2.2 (by decide) (by decide)⟩

theorem pathJoin_right_inj {d n₁ n₂ : String} (h : pathJoin d n₁ = pathJoin d n₂) :
    n₁ = n₂ := by
  unfold pathJoin at h
  have h2 := congrArg String.data h
  rw [String.data_append, String.data_append, String.data_append,
    String.data_append] at h2
  exact String.ext (List.append_cancel_left h2)

theorem scanSelect_eq_some {folder : String} {now : Int} {pf : List String}
    {e : DirEntry} {j : Job} :
    scanSelect folder now pf e = some j ↔
      j = ⟨TaskKind.text, pathJoin folder e.name⟩ ∧
      pathJoin folder e.name ∉ pf ∧
      ∃ m, e.mtime = some m ∧ ¬now - m < 1 := by
  unfold scanSelect
  by_cases hp : pathJoin folder e.name ∈ pf
  · rw [if_pos hp]
    simp [hp]
  · rw [if_neg hp]
    cases hmt : e.mtime with
    | none => simp [hp, hmt]
    | some m =>
      dsimp only
      by_cases hlt : now - m < 1
      · rw [if_pos hlt]
        simp only [hp, not_false_iff, true_and, hmt]
        constructor
        · intro h; exact absurd h (by simp)
        · rintro ⟨-, m', hm', hge⟩
          obtain rfl := Option.some.inj hm'
          exact absurd hlt hge
      · rw [if_neg hlt]
        simp only [Option.some.injEq, hp, not_false_iff, true_and, hmt]
        constructor
        · intro h; exact ⟨h.symm, m, rfl, hlt⟩
        · rintro ⟨hj, -⟩; exact hj.symm

/-- **C9.** In one `PeriodicScanner._scan` pass, a retry-root file with an
allowed extension and a readable modification time is submitted as a
Text Job if and only if its joined path is not in `processing_files` and
its last-modified age is at least the 1-second stability threshold. -/
theorem scanner_stability_filter (folder : String) (now : Int)
    (processing_files : List String) (listing : List DirEntry)
    (e : DirEntry) (m : Int)
    (hnodup : (listing.map DirEntry.name).Nodup)
    (he : e ∈ listing) (hext : hasTextExt e.name = true)
    (hm : e.mtime = some m) :
    (⟨TaskKind.text, pathJoin folder e.name⟩ : Job) ∈
        scanOnce folder now processing_files listing ↔
      (pathJoin folder e.name ∉ processing_files ∧ 1 ≤ now - m) := by
  unfold scanOnce
  rw [List.mem_filterMap]
  constructor
  · rintro ⟨a, ha, hsel⟩
    rw [scanSelect_eq_some] at hsel
    obtain ⟨hj, hnp, m', hm', hge⟩ := hsel
    have hpa : pathJoin folder e.name = pathJoin folder a.name :=
      congrArg Job.path hj
    have hae : a.name = e.name := (pathJoin_right_inj hpa).symm
    have hina : a ∈ listing := (List.mem_filter.1 ha).1
    have haeq : a = e := List.inj_on_of_nodup_map hnodup hina he hae
    subst haeq
    rw [hm] at hm'
    obtain rfl := Option.some.inj hm'
    exact ⟨hnp, by omega⟩
  · rintro ⟨hnp, hge⟩
    refine ⟨e, List.mem_filter.2 ⟨he, hext⟩, ?_⟩
    rw [scanSelect_eq_some]
    exact ⟨rfl, hnp, m, hm, by omega⟩

/-- Witness for C9: a concrete pass over a directory holding a stable
file, a too-young file, and an in-flight file. -/
theorem scanner_stability_filter_witness :
    (([⟨"a.txt", some 5⟩, ⟨"young.md", some 10⟩,
       ⟨"busy.txt", some 2⟩] : List DirEntry).map DirEntry.name).Nodup ∧
    (⟨"a.txt", some 5⟩ : DirEntry) ∈
      ([⟨"a.txt", some 5⟩, ⟨"young.md", some 10⟩, ⟨"busy.txt", some 2⟩] : List DirEntry) ∧
    hasTextExt "a.txt" = true ∧
    ((⟨TaskKind.text, pathJoin "/retry" "a.txt"⟩ : Job) ∈
        scanOnce "/retry" 10 ["/retry/busy.txt"]
          [⟨"a.txt", some 5⟩, ⟨"young.md", some 10⟩, ⟨"busy.txt", some 2⟩] ↔
      (pathJoin "/retry" "a.txt" ∉ ["/retry/busy.txt"] ∧ 1 ≤ (10 : Int) - 5)) :=
  ⟨by decide, by decide, by decide,
    scanner_stability_filter "/retry" 10 ["/retry/busy.txt"]
      [⟨"a.txt", some 5⟩, ⟨"young.md", some 10⟩, ⟨"busy.txt", some 2⟩]
      ⟨"a.txt", some 5⟩ 5 (by decide) (by decide) (by decide) rfl⟩

theorem buildFilename_repr_eq {base : String} {n m : Nat}
    (h : buildFilename base n = buildFilename base m) : Nat.repr n = Nat.repr m := by
  unfold buildFilename at h
  have h2 := congrArg String.data h
  rw [String.data_append, String.data_append, String.data_append,
    String.data_append, String.data_append, String.data_append] at h2
  exact String.ext
    (List.append_cancel_left (List.append_cancel_right h2))

theorem findCounterAux_some {existing : List String} {base_id : String} :
    ∀ (fuel start : Nat) {n : Nat} {fn : String},
      findCounterAux existing base_id fuel start = some (n, fn) →
      fn = buildFilename base_id n ∧ start ≤ n ∧ fn ∉ existing ∧
        ∀ m, start ≤ m → m < n → buildFilename base_id m ∈ existing := by
  intro fuel
  induction fuel with
  | zero => intro start n fn h; simp [findCounterAux] at h
  | succ fuel ih =>
    intro start n fn h
    unfold findCounterAux at h
    by_cases hmem : buildFilename base_id start ∈ existing
    · rw [if_pos hmem] at h
      obtain ⟨hfn, hle, hnm, hmin⟩ := ih (start + 1) h
      refine ⟨hfn, by omega, hnm, ?_⟩
      intro m hm1 hm2
      by_cases hms : m = start
      · exact hms ▸ hmem
      · exact hmin m (by omega) hm2
    · rw [if_neg hmem] at h
      obtain ⟨h1, h2⟩ := Prod.mk.injEq .. ▸ Option.some.inj h
      subst h1
      subst h2
      exact ⟨rfl, le_refl _, hmem, fun m hm1 hm2 => absurd hm2 (by omega)⟩

theorem findCounterAux_step_mem {existing : List String} {base_id : String}
    {fuel start : Nat} (h : buildFilename base_id start ∈ existing) :
    findCounterAux existing base_id (fuel + 1) start =
      findCounterAux existing base_id fuel (start + 1) := by
  unfold findCounterAux
  rw [if_pos h]
  cases fuel <;> rfl

theorem findCounterAux_step_not_mem {existing : List String} {base_id : String}
    {fuel start : Nat} (h : buildFilename base_id start ∉ existing) :
    findCounterAux existing base_id (fuel + 1) start =
      some (start, buildFilename base_id start) := by
  unfold findCounterAux
  rw [if_neg h]

/-- **C7.** The disambiguation loop of `_run_ingestion_pipeline`: the
chosen filename is `<base_id>-<n>.md` with `n` the smallest positive
integer whose filename is not already present; consequently three
documents created in a row with the same date and content-type (starting
from a directory holding none of the three names) get the suffixes
`-1`, `-2`, `-3`. -/
theorem filename_disambiguation (existing : List String) (base_id : String) :
    (∀ n fn, findCounter existing base_id = some (n, fn) →
      fn = buildFilename base_id n ∧ 1 ≤ n ∧ fn ∉ existing ∧
        ∀ m, 1 ≤ m → m < n → buildFilename base_id m ∈ existing) ∧
    (buildFilename base_id 1 ∉ existing →
     buildFilename base_id 2 ∉ existing →
     buildFilename base_id 3 ∉ existing →
      findCounter existing base_id = some (1, buildFilename base_id 1) ∧
      findCounter (buildFilename base_id 1 :: existing) base_id
        = some (2, buildFilename base_id 2) ∧
      findCounter (buildFilename base_id 2 :: buildFilename base_id 1 :: existing)
        base_id = some (3, buildFilename base_id 3)) := by
  constructor
  · intro n fn h
    exact findCounterAux_some _ 1 h
  · intro h1 h2 h3
    have ne21 : buildFilename base_id 2 ≠ buildFilename base_id 1 := fun h =>
      absurd (buildFilename_repr_eq h) (by decide)
    have ne31 : buildFilename base_id 3 ≠ buildFilename base_id 1 := fun h =>
      absurd (buildFilename_repr_eq h) (by decide)
    have ne32 : buildFilename base_id 3 ≠ buildFilename base_id 2 := fun h =>
      absurd (buildFilename_repr_eq h) (by decide)
    refine ⟨findCounterAux_step_not_mem h1, ?_, ?_⟩
    · show findCounterAux _ _ ((buildFilename base_id 1 :: existing).length + 1) 1
        = some (2, buildFilename base_id 2)
      have hlen : (buildFilename base_id 1 :: existing).length + 1
          = (existing.length + 1) + 1 := by simp
      rw [hlen,
        findCounterAux_step_mem (List.mem_cons_self _ _),
        findCounterAux_step_not_mem (by
          simp only [List.mem_cons, not_or]
          exact ⟨ne21, h2⟩)]
    · show findCounterAux _ _
        ((buildFilename base_id 2 :: buildFilename base_id 1 :: existing).length + 1) 1
        = some (3, buildFilename base_id 3)
      have hlen : (buildFilename base_id 2 :: buildFilename base_id 1 :: existing).length + 1
          = ((existing.length + 1) + 1) + 1 := by simp
      rw [hlen,
        findCounterAux_step_mem (by simp),
        findCounterAux_step_mem (List.mem_cons_self _ _),
        findCounterAux_step_not_mem (by
          simp only [List.mem_cons, not_or]
          exact ⟨ne32, ne31, h3⟩)]

/-- Witness for C7: a concrete directory state for the minimality part
and the empty directory for the three-creations part. -/
theorem filename_disambiguation_witness :
    (findCounter ["x-1.md"] "x" = some (2, "x-2.md") ∧
      "x-2.md" = buildFilename "x" 2 ∧ 1 ≤ 2 ∧ "x-2.md" ∉ ["x-1.md"] ∧
        ∀ m, 1 ≤ m → m < 2 → buildFilename "x" m ∈ ["x-1.md"]) ∧
    (findCounter [] "2025-10-12-journal_entry"
        = some (1, buildFilename "2025-10-12-journal_entry" 1) ∧
      findCounter [buildFilename "2025-10-12-journal_entry" 1] "2025-10-12-journal_entry"
        = some (2, buildFilename "2025-10-12-journal_entry" 2) ∧
      findCounter [buildFilename "2025-10-12-journal_entry" 2,
          buildFilename "2025-10-12-journal_entry" 1] "2025-10-12-journal_entry"
        = some (3, buildFilename "2025-10-12-journal_entry" 3)) :=
  ⟨⟨by decide, (filename_disambiguation ["x-1.md"] "x").1 2 "x-2.md" (by decide)⟩,
   (filename_disambiguation [] "2025-10-12-journal_entry").2
     (by decide) (by decide) (by decide)⟩

/-- **C5.** One `worker` iteration: whether the dispatched pipeline call
returns normally (with any `created_file`) or raises, and whether or not
the file still exists, the `finally` block removes the job's path from
`processing_files` and the loop proceeds to the next job. -/
theorem worker_cleanup_spec (processing_files : Finset String) (job : Job)
    (file_exists : Bool) (outcome : PipeOutcome) :
    job.path ∉
        (workerIteration processing_files job file_exists outcome).processing_files ∧
      (workerIteration processing_files job file_exists outcome).continues = true := by
  refine ⟨?_, rfl⟩
  show job.path ∉
    (if job.path ∈ insert job.path processing_files then
      (insert job.path processing_files).erase job.path
    else insert job.path processing_files)
  rw [if_pos (Finset.mem_insert_self _ _)]
  exact Finset.not_mem_erase _ _

theorem reachable_exec_mem {s : SysState} (hs : Reachable s) :
    ∀ j : Job, s.phase = .running j ∨ s.phase = .cleanup j →
      j.path ∈ s.processing := by
  induction hs with
  | init =>
    intro j hj
    rcases hj with h | h <;> simp [initState] at h
  | step hr hstep ih =>
    intro j hj
    cases hstep with
    | submit j' => exact ih j hj
    | start j' rest hq hw =>
      rcases hj with h | h
      · obtain rfl := WPhase.running.inj h
        exact Finset.mem_insert_self _ _
      · exact absurd h (by simp)
    | finish j' hw =>
      rcases hj with h | h
      · exact absurd h (by simp)
      · obtain rfl := WPhase.cleanup.inj h
        exact ih _ (Or.inl hw)
    | release j' hw =>
      rcases hj with h | h <;> exact absurd h (by simp)

/-- **C1.** In every reachable state of the `main.py` orchestration
(single worker thread, arbitrary interleaving of producer submissions):
a job's path is a member of `processing_files` throughout the job's
whole execution (both while the dispatched call runs and during the
cooldown before release), and at most one processing pass executes at
any instant, so no two passes for the same path ever overlap. -/
theorem in_flight_exclusion (s : SysState) (hs : Reachable s) :
    (∀ j : Job, s.phase = .running j ∨ s.phase = .cleanup j →
      j.path ∈ s.processing) ∧
    (∀ j k : Job, executing s j → executing s k → j = k) := by
  refine ⟨reachable_exec_mem hs, ?_⟩
  intro j k hj hk
  rw [executing] at hj hk
  rw [hj] at hk
  exact WPhase.running.inj hk

/-- Witness for C1: the reachable state in which the worker is executing
a freshly submitted job. -/
theorem in_flight_exclusion_witness :
    Reachable exampleRunState ∧
    ((∀ j : Job, exampleRunState.phase = .running j ∨
        exampleRunState.phase = .cleanup j →
        j.path ∈ exampleRunState.processing) ∧
     (∀ j k : Job, executing exampleRunState j →
        executing exampleRunState k → j = k)) :=
  have hreach : Reachable exampleRunState :=
    Reachable.step
      (Reachable.step Reachable.init
        (SysStep.submit initState ⟨TaskKind.text, "/in/a.txt"⟩))
      (SysStep.start _ ⟨TaskKind.text, "/in/a.txt"⟩ [] rfl rfl)
  ⟨hreach, in_flight_exclusion _ hreach⟩

/-- **C2** (evidence at the failing input).  A raw text file in the
retry root whose enrichment yields no title: the ingestion persists an
`Untitled` (partial) document and — because `is_text_file` suppresses
the retry copy — leaves nothing in the retry root, yet
`process_text_file` still removes the source file, since the removal on
line 70 of `src/pipeline.py` is guarded only by the truthiness of the
returned path and not by completion.  The claim (and the partial-failure
log message `Queuing in Input Folder`) requires the source to stay in
place on a partial completion. -/
theorem text_partial_source_removed :
    ({ ai_meta := {}, analysis := ""
       sync := { upload_id := some "fid", link_ok := true } } : Collab).ai_meta.title
        = "Untitled" ∧
    process_text_file exampleCfg
        { ai_meta := {}, analysis := ""
          sync := { upload_id := some "fid", link_ok := true } }
        emptyFs "hello world" "/batch/note.txt" "note.txt" exampleMeta
        (emptyFs, none)
      = ({ output_files := ["/out/Personal Diary/2025-10-12-journal_entry-1.md"]
           retry_files := [], source_present := false },
         some "/out/Personal Diary/2025-10-12-journal_entry-1.md") := by
  constructor
  · rfl
  · decide

/-- **C3** (counterexample).  A fully completed text ingestion whose
sync collaborator always fails (`upload_file` returns `None` for every
call): `_sync_file` returns `False` without raising and the document
stays persisted in the knowledge-output folder, but
`_run_ingestion_pipeline` discards the sync result (line 163) and makes
no retry-root copy, so the retry scanner has nothing to pick up —
refuting the retry-copy part of the claim. -/
theorem ingestion_sync_failure_no_retry_copy :
    sync_file exampleCfg { upload_id := none, link_ok := false }
        "journal_entry" [] = false ∧
    run_ingestion_pipeline exampleCfg
        { ai_meta := { title := "A Day" }, analysis := ""
          sync := { upload_id := none, link_ok := false } }
        emptyFs exampleMeta "note.txt" "/batch/note.txt" true
      = ({ output_files := ["/out/Personal Diary/2025-10-12-journal_entry-1.md"]
           retry_files := [], source_present := true },
         some "/out/Personal Diary/2025-10-12-journal_entry-1.md") := by
  constructor
  · rfl
  · decide

/-- **C3** (amended).  For every fully completed ingestion whose sync
collaborator always fails: the sync operation returns `false` without
raising to the caller (it is a total function of the collaborator
results, whose Python counterpart catches its own exceptions), and the
document remains persisted on disk in the knowledge-output folder; no
retry-root copy is made by the ingestion pipeline (the retry-root copy
on sync failure exists only in the separate `sync_existing_file`
path). -/
theorem sync_failure_nonfatal (cfg : PipeConfig) (c : Collab) (st : FsState)
    (meta : ExtractedMeta) (original_filename source_path : String)
    (is_text_file : Bool) (entry_type : String) (n : Nat) (fp : String)
    (hentry : determine_content_type cfg.content_types meta.clean_text = entry_type)
    (hfail : c.sync.upload_id = none)
    (htitle : c.ai_meta.title ≠ "Untitled")
    (hana : ¬(((cfg.content_types.lookup entry_type).map (·.enable_analysis)).getD false
        = true ∧ run_analysis cfg c entry_type = ""))
    (hcnt : findCounter st.output_files
        (pathJoin (pathJoin cfg.output_path
            (targetSubfolder (cfg.content_types.lookup entry_type)))
          (meta.date ++ "-" ++ entry_type)) = some (n, fp)) :
    (∀ et tags ff, sync_file cfg c.sync et tags ff = false) ∧
    run_ingestion_pipeline cfg c st meta original_filename source_path is_text_file
      = ({ st with output_files := fp :: st.output_files }, some fp) := by
  subst hentry
  constructor
  · intro et tags ff
    simp [sync_file, hfail, pyTruthy]
  · simp only [run_ingestion_pipeline]
    rw [hcnt]
    dsimp only
    have hmiss : ¬(c.ai_meta.title = "Untitled" ∨
        ((((cfg.content_types.lookup
            (determine_content_type cfg.content_types meta.clean_text)).map
            (·.enable_analysis)).getD false) = true ∧
          (if ((cfg.content_types.lookup
              (determine_content_type cfg.content_types meta.clean_text)).map
              (·.enable_analysis)).getD false
            then run_analysis cfg c (determine_content_type cfg.content_types meta.clean_text)
            else "") = "")) := by
      rintro (h | ⟨hreq, heq⟩)
      · exact htitle h
      · rw [if_pos hreq] at heq
        exact hana ⟨hreq, heq⟩
    rw [if_neg hmiss]

/-- Witness for the amended C3 at a concrete completed ingestion with a
failing sync collaborator. -/
theorem sync_failure_nonfatal_witness :
    ({ ai_meta := { title := "A Day" }, analysis := ""
       sync := { upload_id := none, link_ok := false } } : Collab).sync.upload_id
        = none ∧
    ((∀ et tags ff, sync_file exampleCfg
        ({ ai_meta := { title := "A Day" }, analysis := ""
           sync := { upload_id := none, link_ok := false } } : Collab).sync
        et tags ff = false) ∧
     run_ingestion_pipeline exampleCfg
        { ai_meta := { title := "A Day" }, analysis := ""
          sync := { upload_id := none, link_ok := false } }
        emptyFs exampleMeta "v.m4a" "/in/v.m4a" false
      = ({ emptyFs with output_files :=
            "/out/Personal Diary/2025-10-12-journal_entry-1.md"
              :: emptyFs.output_files },
         some "/out/Personal Diary/2025-10-12-journal_entry-1.md")) :=
  ⟨rfl,
   sync_failure_nonfatal exampleCfg
     { ai_meta := { title := "A Day" }, analysis := ""
       sync := { upload_id := none, link_ok := false } }
     emptyFs exampleMeta "v.m4a" "/in/v.m4a" false "journal_entry" 1
     "/out/Personal Diary/2025-10-12-journal_entry-1.md"
     (by decide) rfl (by decide) (by decide) (by decide)⟩

/-- **C8.** `_run_repair_pipeline` on a document whose title is still the
sentinel and whose re-enrichment again yields no title: if the health
check reports the server unreachable, the file is not rewritten, no sync
is attempted, and the original path is returned for a future retry pass;
if the server is reachable, the title becomes the deterministic fallback
`f"Recovered Entry {date}".strip()` and the file is rewritten in
place. -/
theorem repair_title_fallback (cfg : PipeConfig) (c : RepairCollab)
    (doc : RepairDoc) (filepath filename : String)
    (hsent : doc.title = none ∨ doc.title = some "Untitled" ∨
      doc.title = some "null")
    (henr : c.ai_meta.title = "Untitled") :
    (c.health = false →
      run_repair_pipeline cfg c doc filepath filename =
        { fm_title := doc.title, file_changed := false, added_analysis := false
          sync_attempted := false, synced := false, moved := false
          ret := filepath }) ∧
    (c.health = true →
      (run_repair_pipeline cfg c doc filepath filename).fm_title
          = some (pyStrip ("Recovered Entry " ++ doc.date)) ∧
      (run_repair_pipeline cfg c doc filepath filename).file_changed = true ∧
      (run_repair_pipeline cfg c doc filepath filename).sync_attempted = true) := by
  have hne : ¬(c.ai_meta.title ≠ "Untitled") := by simp [henr]
  constructor
  · intro hh
    unfold run_repair_pipeline
    rw [if_pos hsent, if_neg hne, if_pos (by simp [hh])]
  · intro hh
    unfold run_repair_pipeline
    rw [if_pos hsent, if_neg hne, if_neg (by simp [hh])]
    refine ⟨by simp [repairTail], by simp [repairTail], by simp [repairTail]⟩

/-- Witness for C8: a concrete sentinel-titled retry document against an
offline and an online collaborator. -/
theorem repair_title_fallback_witness :
    ((some "Untitled" : Option String) = none ∨
      (some "Untitled" : Option String) = some "Untitled" ∨
      (some "Untitled" : Option String) = some "null") ∧
    (run_repair_pipeline exampleCfg
        { ai_meta := {}, health := false, analysis := ""
          sync := { upload_id := none, link_ok := false } }
        { title := some "Untitled", date := "2025-10-12"
          entry_type := "journal_entry", tags := [], focus := false
          has_analysis := false, body_text := "body" }
        "/batch/r.md" "r.md"
      = { fm_title := some "Untitled", file_changed := false
          added_analysis := false, sync_attempted := false, synced := false
          moved := false, ret := "/batch/r.md" }) ∧
    ((run_repair_pipeline exampleCfg
        { ai_meta := {}, health := true, analysis := ""
          sync := { upload_id := some "fid", link_ok := true } }
        { title := some "Untitled", date := "2025-10-12"
          entry_type := "journal_entry", tags := [], focus := false
          has_analysis := false, body_text := "body" }
        "/batch/r.md" "r.md").fm_title
        = some (pyStrip ("Recovered Entry " ++ "2025-10-12")) ∧
     (run_repair_pipeline exampleCfg
        { ai_meta := {}, health := true, analysis := ""
          sync := { upload_id := some "fid", link_ok := true } }
        { title := some "Untitled", date := "2025-10-12"
          entry_type := "journal_entry", tags := [], focus := false
          has_analysis := false, body_text := "body" }
        "/batch/r.md" "r.md").file_changed = true ∧
     (run_repair_pipeline exampleCfg
        { ai_meta := {}, health := true, analysis := ""
          sync := { upload_id := some "fid", link_ok := true } }
        { title := some "Untitled", date := "2025-10-12"
          entry_type := "journal_entry", tags := [], focus := false
          has_analysis := false, body_text := "body" }
        "/batch/r.md" "r.md").sync_attempted = true) :=
  ⟨Or.inr (Or.inl rfl),
   (repair_title_fallback exampleCfg
      { ai_meta := {}, health := false, analysis := ""
        sync := { upload_id := none, link_ok := false } }
      { title := some "Untitled", date := "2025-10-12"
        entry_type := "journal_entry", tags := [], focus := false
        has_analysis := false, body_text := "body" }
      "/batch/r.md" "r.md" (Or.inr (Or.inl rfl)) rfl).1 rfl,
   (repair_title_fallback exampleCfg
      { ai_meta := {}, health := true, analysis := ""
        sync := { upload_id := some "fid", link_ok := true } }
      { title := some "Untitled", date := "2025-10-12"
        entry_type := "journal_entry", tags := [], focus := false
        has_analysis := false, body_text := "body" }
      "/batch/r.md" "r.md" (Or.inr (Or.inl rfl)) rfl).2 rfl⟩

theorem debRun_append (delay : Nat) (p : String) (kind : TaskKind)
    (pf : List String) (init : Pending × List Emit) (l₁ l₂ : List DEvent) :
    debRun delay p kind pf init (l₁ ++ l₂)
      = debRun delay p kind pf (debRun delay p kind pf init l₁) l₂ :=
  List.foldl_append _ _ _ _

theorem phasesEvents_cons (ph : Nat × List Nat) (rest : List (Nat × List Nat)) :
    phasesEvents (ph :: rest)
      = (DEvent.sched ph.1 :: ph.2.map DEvent.tick) ++ phasesEvents rest := by
  simp [phasesEvents, phaseEvents]

theorem debStep_sched_small (delay : Nat) (p : String) (kind : TaskKind)
    (pf : List String) (t : Nat) (out : List Emit) (pending : Pending)
    (hsmall : pending = [] ∨ ∃ f, pending = [(p, f, kind)]) :
    debStep delay p kind pf (pending, out) (.sched t)
      = ([(p, t + delay, kind)], out) := by
  rcases hsmall with rfl | ⟨f, rfl⟩
  · rfl
  · simp [debStep, schedule]

theorem debStep_tick_low (delay : Nat) (p : String) (kind : TaskKind)
    (pf : List String) (t f : Nat) (out : List Emit) (hlt : t < f) :
    debStep delay p kind pf ([(p, f, kind)], out) (.tick t)
      = ([(p, f, kind)], out) := by
  simp only [debStep, tickFire]
  rw [List.filter_cons, List.filter_cons]
  simp [Nat.not_le.mpr hlt]

theorem debStep_tick_fire (delay : Nat) (p : String) (kind : TaskKind)
    (pf : List String) (t f : Nat) (out : List Emit) (hge : f ≤ t)
    (hp : p ∉ pf) :
    debStep delay p kind pf ([(p, f, kind)], out) (.tick t)
      = ([], out ++ [(p, kind, t)]) := by
  simp [debStep, tickFire, hge, hp]

theorem debRun_ticks_low (delay : Nat) (p : String) (kind : TaskKind)
    (pf : List String) (f : Nat) (out : List Emit) :
    ∀ (ticks : List Nat), (∀ v ∈ ticks, v < f) →
      debRun delay p kind pf ([(p, f, kind)], out) (ticks.map DEvent.tick)
        = ([(p, f, kind)], out) := by
  intro ticks
  induction ticks with
  | nil => intro _; rfl
  | cons v vs ih =>
    intro hv
    show debRun delay p kind pf
      (debStep delay p kind pf ([(p, f, kind)], out) (.tick v)) (vs.map DEvent.tick)
        = ([(p, f, kind)], out)
    rw [debStep_tick_low delay p kind pf v f out (hv v (List.mem_cons_self _ _))]
    exact ih (fun w hw => hv w (List.mem_cons_of_mem _ hw))

theorem debRun_ticks_empty (delay : Nat) (p : String) (kind : TaskKind)
    (pf : List String) (out : List Emit) :
    ∀ (ticks : List Nat),
      debRun delay p kind pf ([], out) (ticks.map DEvent.tick) = ([], out) := by
  intro ticks
  induction ticks with
  | nil => rfl
  | cons v vs ih =>
    show debRun delay p kind pf
      (debStep delay p kind pf ([], out) (.tick v)) (vs.map DEvent.tick) = ([], out)
    have h : debStep delay p kind pf ([], out) (.tick v) = ([], out) := by
      simp [debStep, tickFire]
    rw [h]
    exact ih

theorem debRun_phases (delay : Nat) (p : String) (kind : TaskKind)
    (pf : List String) :
    ∀ (phases : List (Nat × List Nat)) (hne : phases ≠ [])
      (pending : Pending) (out : List Emit),
      (pending = [] ∨ ∃ f, pending = [(p, f, kind)]) →
      (∀ ph ∈ phases, ∀ v ∈ ph.2, v < ph.1 + delay) →
      debRun delay p kind pf (pending, out) (phasesEvents phases)
        = ([(p, (phases.getLast hne).1 + delay, kind)], out) := by
  intro phases
  induction phases with
  | nil => intro hne; exact absurd rfl hne
  | cons ph rest ih =>
    intro hne pending out hsmall hwin
    rw [phasesEvents_cons, debRun_append]
    have h1 : debRun delay p kind pf (pending, out)
        (DEvent.sched ph.1 :: ph.2.map DEvent.tick)
          = ([(p, ph.1 + delay, kind)], out) := by
      show debRun delay p kind pf
        (debStep delay p kind pf (pending, out) (.sched ph.1))
        (ph.2.map DEvent.tick) = _
      rw [debStep_sched_small delay p kind pf ph.1 out pending hsmall]
      exact debRun_ticks_low delay p kind pf (ph.1 + delay) out ph.2
        (fun v hv => hwin ph (List.mem_cons_self _ _) v hv)
    rw [h1]
    cases rest with
    | nil =>
      show ([(p, ph.1 + delay, kind)], out) = _
      rfl
    | cons ph2 rest2 =>
      have h2 := ih (by simp) [(p, ph.1 + delay, kind)] out
        (Or.inr ⟨ph.1 + delay, rfl⟩)
        (fun q hq v hv => hwin q (List.mem_cons_of_mem _ hq) v hv)
      rw [h2, List.getLast_cons (by simp : (ph2 :: rest2) ≠ [])]

theorem schedule_atMostOne {delay now : Nat} {fp : String} {tk : TaskKind}
    {pending : Pending} (h : AtMostOnePerPath pending) :
    AtMostOnePerPath (schedule delay now fp tk pending) := by
  intro q
  unfold schedule
  rw [List.countP_cons]
  by_cases hq : q = fp
  · subst hq
    have hzero : (pending.filter (fun e => e.1 ≠ q)).countP
        (fun e => e.1 = q) = 0 := by
      rw [List.countP_eq_zero]
      intro a ha
      have := (List.mem_filter.1 ha).2
      simpa using this
    simp [hzero]
  · have hle : (pending.filter (fun e => e.1 ≠ fp)).countP (fun e => e.1 = q)
        ≤ pending.countP (fun e => e.1 = q) :=
      (List.filter_sublist pending).countP_le _
    have : (decide ((fp, now + delay, tk).1 = q)) = false := by
      simp [Ne.symm hq]
    simp only [this, if_false, Nat.add_zero, cond_false]
    calc (pending.filter (fun e => e.1 ≠ fp)).countP (fun e => e.1 = q)
        ≤ pending.countP (fun e => e.1 = q) := hle
      _ ≤ 1 := h q

theorem debStep_atMostOne (delay : Nat) (p : String) (kind : TaskKind)
    (pf : List String) (st : Pending × List Emit) (e : DEvent)
    (h : AtMostOnePerPath st.1) :
    AtMostOnePerPath (debStep delay p kind pf st e).1 := by
  obtain ⟨pending, out⟩ := st
  cases e with
  | sched t => exact schedule_atMostOne h
  | tick t =>
    intro q
    calc (debStep delay p kind pf (pending, out) (.tick t)).1.countP
          (fun e => e.1 = q)
        ≤ pending.countP (fun e => e.1 = q) :=
          (List.filter_sublist pending).countP_le _
      _ ≤ 1 := h q

theorem debRun_atMostOne (delay : Nat) (p : String) (kind : TaskKind)
    (pf : List String) :
    ∀ (events : List DEvent) (st : Pending × List Emit),
      AtMostOnePerPath st.1 →
      AtMostOnePerPath (debRun delay p kind pf st events).1 := by
  intro events
  induction events with
  | nil => intro st h; exact h
  | cons e es ih =>
    intro st h
    exact ih _ (debStep_atMostOne delay p kind pf st e h)

/-- **C4.** `DebounceManager` coalescing: starting from an empty pending
map, a burst of `N ≥ 1` `schedule(p, 'sync_update')` calls interleaved
with monitor ticks that all land inside the current delay window leaves
exactly one pending entry for `p`, with `execute_at` equal to the last
schedule time plus the configured delay; the first tick at or past that
time (with `p` not in flight) enqueues exactly one sync job for `p`, and
later ticks enqueue none.  Moreover the pending map holds at most one
entry per path after every event sequence. -/
theorem debounce_coalescing (delay : Nat) (p : String) (kind : TaskKind)
    (processing_files : List String) (phases : List (Nat × List Nat))
    (pre post : List Nat) (u lastT : Nat)
    (hne : phases ≠ [])
    (hlast : (phases.getLast hne).1 = lastT)
    (hwin : ∀ ph ∈ phases, ∀ v ∈ ph.2, v < ph.1 + delay)
    (hpre : ∀ v ∈ pre, v < lastT + delay)
    (hu : lastT + delay ≤ u)
    (hp : p ∉ processing_files) :
    (debRun delay p kind processing_files ([], [])
        (phasesEvents phases ++ pre.map DEvent.tick)).1
      = [(p, lastT + delay, kind)] ∧
    (debRun delay p kind processing_files ([], [])
        (phasesEvents phases ++ pre.map DEvent.tick ++ [DEvent.tick u]
          ++ post.map DEvent.tick)).2
      = [(p, kind, u)] ∧
    (∀ events : List DEvent,
      AtMostOnePerPath
        (debRun delay p kind processing_files ([], []) events).1) := by
  have hphase := debRun_phases delay p kind processing_files phases hne [] []
    (Or.inl rfl) hwin
  rw [hlast] at hphase
  have hmid : debRun delay p kind processing_files ([], [])
      (phasesEvents phases ++ pre.map DEvent.tick)
        = ([(p, lastT + delay, kind)], []) := by
    rw [debRun_append, hphase]
    exact debRun_ticks_low delay p kind processing_files (lastT + delay) [] pre hpre
  refine ⟨by rw [hmid], ?_, ?_⟩
  · rw [debRun_append, debRun_append, hmid]
    have hfire : debRun delay p kind processing_files
        ([(p, lastT + delay, kind)], []) [DEvent.tick u]
          = ([], [(p, kind, u)]) := by
      show debStep delay p kind processing_files
        ([(p, lastT + delay, kind)], []) (.tick u) = _
      rw [debStep_tick_fire delay p kind processing_files u (lastT + delay) [] hu hp]
      rfl
    rw [hfire, debRun_ticks_empty]
  · intro events
    refine debRun_atMostOne delay p kind processing_files events ([], []) ?_
    intro q
    simp [AtMostOnePerPath]

/-- Witness for C4: three schedule calls with interleaved early ticks,
two more early ticks, the firing tick, and two late ticks. -/
theorem debounce_coalescing_witness :
    ([((0 : Nat), [1, 2]), (5, [6, 14]), (9, [10, 20])] ≠
      ([] : List (Nat × List Nat))) ∧
    ((9 : Nat) + 15 ≤ 24) ∧
    ("/out/doc.md" ∉ ([] : List String)) ∧
    ((debRun 15 "/out/doc.md" TaskKind.syncUpdate []
        ([], [])
        (phasesEvents [(0, [1, 2]), (5, [6, 14]), (9, [10, 20])]
          ++ [21, 23].map DEvent.tick)).1
      = [("/out/doc.md", 9 + 15, TaskKind.syncUpdate)] ∧
     (debRun 15 "/out/doc.md" TaskKind.syncUpdate []
        ([], [])
        (phasesEvents [(0, [1, 2]), (5, [6, 14]), (9, [10, 20])]
          ++ [21, 23].map DEvent.tick ++ [DEvent.tick 24]
          ++ [25, 26].map DEvent.tick)).2
      = [("/out/doc.md", TaskKind.syncUpdate, 24)] ∧
     (∀ events : List DEvent,
       AtMostOnePerPath
         (debRun 15 "/out/doc.md" TaskKind.syncUpdate [] ([], []) events).1)) :=
  ⟨by decide, by decide, by decide,
   debounce_coalescing 15 "/out/doc.md" TaskKind.syncUpdate []
     [(0, [1, 2]), (5, [6, 14]), (9, [10, 20])] [21, 23] [25, 26] 24 9
     (by decide) (by decide) (by decide) (by decide) (by decide) (by decide)⟩

end KnowledgePipeline
